import Mathlib

/-!
# Verification of the voucher-server repository

A shallow embedding, in Lean 4, of the pure/state-passing content of the
voucher fulfillment server (Paystack webhook → Google-Sheets voucher
inventory → Arkesel SMS → affiliate ledger).

Modelling conventions:
* A JavaScript string is modelled as its sequence of characters, `JStr`.
* A spreadsheet row (as returned by the Sheets `values.get` API) is a list
  of cell strings, possibly ragged; `cell r i` models `(r[i] || '')`.
  The Sheets values API returns every cell as a string, so numeric writes
  (`25`, `3`, running totals) appear in the store as their decimal
  renderings.
* Stateful operations (the voucher allocator, the affiliate ledger, the
  webhook handler) are modelled as explicit state-passing functions; the
  wall clock (`new Date().toISOString()`) is passed in as a `now` argument;
  a fallible external read is an `Option`; a fallible external send is a
  `Bool` outcome argument (`true` = the provider call returned, `false` =
  it threw and was caught).
-/

/-- A JavaScript string, modelled as its character sequence. -/
abbrev JStr := List Char

/-- ECMAScript whitespace (`\s`, `String.prototype.trim`): tab, LF, VT, FF,
CR, space, NBSP, BOM, and the Unicode space separators. -/
def jsWhitespace (c : Char) : Bool :=
  let n := c.toNat
  n = 0x09 || n = 0x0A || n = 0x0B || n = 0x0C || n = 0x0D || n = 0x20 ||
  n = 0xA0 || n = 0xFEFF || n = 0x1680 || (0x2000 ≤ n && n ≤ 0x200A) ||
  n = 0x2028 || n = 0x2029 || n = 0x202F || n = 0x205F || n = 0x3000

/-- `String.prototype.trim()`: drop leading and trailing whitespace. -/
def jsTrim (s : JStr) : JStr :=
  ((s.dropWhile jsWhitespace).reverse.dropWhile jsWhitespace).reverse

/-- `s.replace(/\s+/g, '')`: remove every whitespace character. -/
def stripWhitespace (s : JStr) : JStr :=
  s.filter (fun c => !jsWhitespace c)

/-- `String.prototype.toLowerCase()` (the ASCII fragment, which is all the
status comparisons exercise). -/
def jsToLower (s : JStr) : JStr := s.map Char.toLower

/-- `if (p.startsWith('+')) p = p.slice(1)` -/
def jsDropPlus (p : JStr) : JStr :=
  if p.head? = some '+' then p.tail else p

/-- `if (p.startsWith('0')) p = '233' + p.slice(1)` -/
def jsZeroTo233 (p : JStr) : JStr :=
  if p.head? = some '0' then '2' :: '3' :: '3' :: p.tail else p

/-- `normalizePhone` from `utils.js` (identical in the unnamed utils
variant): empty input is returned as is (`if (!phone) return ''`), the
input is trimmed, all whitespace removed, one leading `+` dropped, and a
leading `0` replaced by `233`. -/
def normalizePhone (phone : JStr) : JStr :=
  if phone = [] then []
  else jsZeroTo233 (jsDropPlus (stripWhitespace (jsTrim phone)))

/-- The inline phone rewrite in the webhook routes
(`if (phone && phone.startsWith('0')) phone = '233' + phone.slice(1);
 if (phone && phone.startsWith('+')) phone = phone.slice(1);`):
the `0` rewrite runs first, then the `+` drop, and nothing strips
whitespace. -/
def inlinePhoneRewrite (phone : JStr) : JStr :=
  let p := if phone ≠ [] ∧ phone.head? = some '0'
           then '2' :: '3' :: '3' :: phone.tail else phone
  if p ≠ [] ∧ p.head? = some '+' then p.tail else p

/-- The phone normalization algorithm exactly as the spec words it
(§4.1): "strip all whitespace; if the result starts with `+`, drop it; if
the (now plus-free) result starts with `0`, replace that leading `0` with
`233`; otherwise leave unchanged". Stated from the spec for comparison
with the source-derived `normalizePhone`. -/
def specNormalizePhone (x : JStr) : JStr :=
  jsZeroTo233 (jsDropPlus (stripWhitespace x))

example : normalizePhone "0551234567".data = "233551234567".data := by decide
example : normalizePhone "+233551234567".data = "233551234567".data := by decide
example : normalizePhone "233551234567".data = "233551234567".data := by decide
example : normalizePhone " 055 123 4567 ".data = "233551234567".data := by decide
example : normalizePhone "++".data = "+".data := by decide
example : normalizePhone "+".data = "".data := by decide
example : inlinePhoneRewrite "+0551234567".data = "0551234567".data := by decide
example : specNormalizePhone "+0551234567".data = "233551234567".data := by decide

/-! ## Helper lemmas about whitespace-free strings -/

theorem dropWhile_of_head_false {p : Char → Bool} :
    ∀ {l : JStr}, (∀ c ∈ l, p c = false) → l.dropWhile p = l := by
  intro l h
  cases l with
  | nil => rfl
  | cons c t => simp [List.dropWhile, h c (by simp)]

theorem jsTrim_of_wsFree {l : JStr} (h : ∀ c ∈ l, jsWhitespace c = false) :
    jsTrim l = l := by
  unfold jsTrim
  rw [dropWhile_of_head_false h, dropWhile_of_head_false, List.reverse_reverse]
  intro c hc
  exact h c (by simpa using hc)

theorem stripWhitespace_of_wsFree {l : JStr}
    (h : ∀ c ∈ l, jsWhitespace c = false) : stripWhitespace l = l := by
  unfold stripWhitespace
  rw [List.filter_eq_self]
  intro a ha
  simp [h a ha]

theorem filter_dropWhile {p q : Char → Bool}
    (hpq : ∀ a, p a = true → q a = false) :
    ∀ l : JStr, (l.dropWhile p).filter q = l.filter q := by
  intro l
  induction l with
  | nil => rfl
  | cons a t ih =>
    by_cases hp : p a = true
    · rw [List.dropWhile_cons_of_pos hp, ih, List.filter_cons_of_neg]
      simp [hpq a hp]
    · rw [List.dropWhile_cons_of_neg hp]

/-- Removing all whitespace makes the preliminary trim irrelevant. -/
theorem stripWhitespace_jsTrim (l : JStr) :
    stripWhitespace (jsTrim l) = stripWhitespace l := by
  have h : ∀ a, jsWhitespace a = true → (!jsWhitespace a) = false := by
    intro a ha; simp [ha]
  unfold jsTrim stripWhitespace
  rw [List.filter_reverse, filter_dropWhile h, List.filter_reverse,
      List.reverse_reverse, filter_dropWhile h]

theorem mem_stripWhitespace_wsFree {l : JStr} {c : Char}
    (hc : c ∈ stripWhitespace l) : jsWhitespace c = false := by
  unfold stripWhitespace at hc
  have := List.of_mem_filter hc
  simpa using this

/-! ## Idempotence analysis of `normalizePhone` -/

theorem wsFree_jsDropPlus {p : JStr} (h : ∀ c ∈ p, jsWhitespace c = false) :
    ∀ c ∈ jsDropPlus p, jsWhitespace c = false := by
  intro c hc
  unfold jsDropPlus at hc
  by_cases hp : p.head? = some '+'
  · exact h c (List.mem_of_mem_tail (by simpa [hp] using hc))
  · exact h c (by simpa [hp] using hc)

theorem wsFree_jsZeroTo233 {p : JStr} (h : ∀ c ∈ p, jsWhitespace c = false) :
    ∀ c ∈ jsZeroTo233 p, jsWhitespace c = false := by
  intro c hc
  unfold jsZeroTo233 at hc
  by_cases hp : p.head? = some '0'
  · rcases (by simpa [hp] using hc : c = '2' ∨ c = '3' ∨ c = '3' ∨ c ∈ p.tail) with
      h2 | h3 | h3 | ht
    · subst h2; decide
    · subst h3; decide
    · subst h3; decide
    · exact h c (List.mem_of_mem_tail ht)
  · exact h c (by simpa [hp] using hc)

/-- `normalizePhone` acts as the identity on a whitespace-free string that
starts with neither `+` nor `0`. -/
theorem normalizePhone_fixed {y : JStr}
    (hws : ∀ c ∈ y, jsWhitespace c = false)
    (hplus : y.head? ≠ some '+') (hzero : y.head? ≠ some '0') :
    normalizePhone y = y := by
  cases y with
  | nil => rfl
  | cons c t =>
    have hne : (c :: t : JStr) ≠ [] := by simp
    unfold normalizePhone
    rw [if_neg hne, stripWhitespace_jsTrim, stripWhitespace_of_wsFree hws]
    unfold jsDropPlus jsZeroTo233
    rw [if_neg hplus, if_neg hzero]

/-- Core case analysis: applying the `+`-drop and `0`-rewrite to a
whitespace-free string not starting with `++` yields a fixed point of
`normalizePhone`. -/
theorem normalizePhone_core_fixed {q : JStr}
    (hws : ∀ c ∈ q, jsWhitespace c = false)
    (hpp : q.take 2 ≠ ['+', '+']) :
    normalizePhone (jsZeroTo233 (jsDropPlus q)) = jsZeroTo233 (jsDropPlus q) := by
  have hwsy : ∀ c ∈ jsZeroTo233 (jsDropPlus q), jsWhitespace c = false :=
    wsFree_jsZeroTo233 (wsFree_jsDropPlus hws)
  rcases q with _ | ⟨c, t⟩
  · rfl
  by_cases hc : c = '+'
  · subst hc
    have hdrop : jsDropPlus ('+' :: t) = t := by simp [jsDropPlus]
    rw [hdrop] at hwsy ⊢
    rcases t with _ | ⟨c2, t2⟩
    · rfl
    have hc2 : c2 ≠ '+' := by
      intro h; subst h; exact hpp (by simp)
    by_cases h0 : c2 = '0'
    · subst h0
      have hz : jsZeroTo233 ('0' :: t2) = '2' :: '3' :: '3' :: t2 := by
        simp [jsZeroTo233]
      rw [hz] at hwsy ⊢
      exact normalizePhone_fixed hwsy (by simp) (by simp)
    · have hz : jsZeroTo233 (c2 :: t2) = c2 :: t2 := by
        simp [jsZeroTo233, h0]
      rw [hz] at hwsy ⊢
      exact normalizePhone_fixed hwsy (by simp [hc2]) (by simp [h0])
  · have hdrop : jsDropPlus (c :: t) = c :: t := by simp [jsDropPlus, hc]
    rw [hdrop] at hwsy ⊢
    by_cases h0 : c = '0'
    · subst h0
      have hz : jsZeroTo233 ('0' :: t) = '2' :: '3' :: '3' :: t := by
        simp [jsZeroTo233]
      rw [hz] at hwsy ⊢
      exact normalizePhone_fixed hwsy (by simp) (by simp)
    · have hz : jsZeroTo233 (c :: t) = c :: t := by simp [jsZeroTo233, h0]
      rw [hz] at hwsy ⊢
      exact normalizePhone_fixed hwsy (by simp [hc]) (by simp [h0])

/-- C5 fails as stated: on input `"++"` the normalizer drops only one of
the two leading plus signs, and a second application drops the other. -/
theorem C5_counterexample :
    normalizePhone (normalizePhone "++".data) ≠ normalizePhone "++".data := by
  decide

/-- C5 (amended): the Phone Normalizer is idempotent on every input whose
whitespace-stripped form does not begin with two `+` characters:
`normalizePhone (normalizePhone x) = normalizePhone x`. -/
theorem C5_normalizePhone_idempotent (x : JStr)
    (h : (stripWhitespace x).take 2 ≠ ['+', '+']) :
    normalizePhone (normalizePhone x) = normalizePhone x := by
  by_cases hx : x = []
  · subst hx; rfl
  · have hq : normalizePhone x = jsZeroTo233 (jsDropPlus (stripWhitespace x)) := by
      unfold normalizePhone
      rw [if_neg hx, stripWhitespace_jsTrim]
    rw [hq]
    exact normalizePhone_core_fixed
      (fun c hc => mem_stripWhitespace_wsFree hc) h

theorem C5_witness :
    ((stripWhitespace "0551234567".data).take 2 ≠ ['+', '+']) ∧
      normalizePhone (normalizePhone "0551234567".data) =
        normalizePhone "0551234567".data :=
  ⟨by decide, C5_normalizePhone_idempotent "0551234567".data (by decide)⟩

/-- C6 fails as stated for the inline route rewrites: on `"+0551234567"`
the routes (which apply the `0`-rewrite before the `+`-drop) produce
`"0551234567"`, while the claimed algorithm produces `"233551234567"`. -/
theorem C6_counterexample :
    inlinePhoneRewrite "+0551234567".data ≠
      specNormalizePhone "+0551234567".data := by
  decide

/-- C6 (amended): the `normalizePhone` utility computes exactly the
spec's algorithm — strip all whitespace, drop a leading `+`, then replace
a leading `0` by `233`, with no further validation; the inline rewrites in
the HTTP routes do not follow this algorithm (shown by the
counterexample). -/
theorem C6_normalizePhone_matches_spec (x : JStr) :
    normalizePhone x = specNormalizePhone x := by
  by_cases hx : x = []
  · subst hx; rfl
  · unfold normalizePhone specNormalizePhone
    rw [if_neg hx, stripWhitespace_jsTrim]

/-! ## The voucher store and the Voucher Allocator (`sheets.js`) -/

/-- One spreadsheet row as returned by the Sheets values API: a (possibly
ragged) list of cell strings. -/
abbrev Row := List JStr

/-- `(row[i] || '')`: cell access with the empty string for a missing
cell (and `'' || ''` is again `''`). -/
def cell (r : Row) (i : Nat) : JStr := r.getD i []

/-- `(row[2] || '').toString().trim().toLowerCase()` — the status field of
a voucher row as `getAndMarkVoucher` inspects it. -/
def rowStatus (r : Row) : JStr := jsToLower (jsTrim (cell r 2))

/-- `used !== 'yes' && used !== 'used'`: the row is still allocatable. -/
def eligibleRow (r : Row) : Bool :=
  !(rowStatus r == "yes".data) && !(rowStatus r == "used".data)

/-- The row written back by `getAndMarkVoucher` over `A{i}:G{i}`:
`[serial, pin, 'USED', phone || '', email || '', now, affiliateCode || '']`
with `serial`/`pin` the trimmed values read from the row (`x || ''` is the
identity on our string arguments). -/
def markedRow (r : Row) (phone email affiliateCode now : JStr) : Row :=
  [jsTrim (cell r 0), jsTrim (cell r 1), "USED".data,
   phone, email, now, affiliateCode]

/-- `getAndMarkVoucher(phone, email, affiliateCode)` from `sheets.js`:
scan the rows in stored order, pick the first eligible one, write back
exactly that row position with the used marker and the buyer details, and
return its (trimmed) serial and pin; return `null` (`none`) when the store
is exhausted. The updated store is returned alongside the result. -/
def getAndMarkVoucher (phone email affiliateCode now : JStr) :
    List Row → Option (JStr × JStr) × List Row
  | [] => (none, [])
  | r :: rs =>
    if eligibleRow r then
      (some (jsTrim (cell r 0), jsTrim (cell r 1)),
       markedRow r phone email affiliateCode now :: rs)
    else
      let p := getAndMarkVoucher phone email affiliateCode now rs
      (p.1, r :: p.2)

example :
    (getAndMarkVoucher "233551234567".data "k@x.com".data [] "T0".data
      [["A".data, "p1".data, "USED".data],
       ["B".data, "p2".data, [] ],
       ["C".data, "p3".data, [] ]]).1 = some ("B".data, "p2".data) := by
  decide

/-- Full behavioural characterization of `getAndMarkVoucher`, shared by
the C1 and C10 theorems: on exhaustion nothing changes and every row is
ineligible; otherwise the least eligible index is selected, it alone is
overwritten, and its trimmed serial/pin are returned. -/
theorem getAndMarkVoucher_spec (phone email aff now : JStr) :
    ∀ rows : List Row,
      match getAndMarkVoucher phone email aff now rows with
      | (none, rows') => rows' = rows ∧ ∀ r ∈ rows, eligibleRow r = false
      | (some sp, rows') =>
          ∃ i, i < rows.length ∧ eligibleRow (rows.getD i []) = true ∧
            (∀ j, j < i → eligibleRow (rows.getD j []) = false) ∧
            sp = (jsTrim (cell (rows.getD i []) 0),
                  jsTrim (cell (rows.getD i []) 1)) ∧
            rows' = rows.set i (markedRow (rows.getD i []) phone email aff now) := by
  intro rows
  induction rows with
  | nil => exact ⟨rfl, by simp⟩
  | cons r rs ih =>
    by_cases he : eligibleRow r = true
    · have hg : getAndMarkVoucher phone email aff now (r :: rs) =
          (some (jsTrim (cell r 0), jsTrim (cell r 1)),
           markedRow r phone email aff now :: rs) := by
        simp [getAndMarkVoucher, he]
      rw [hg]
      exact ⟨0, by simp, by simpa using he, by omega, rfl, rfl⟩
    · have hg : getAndMarkVoucher phone email aff now (r :: rs) =
          ((getAndMarkVoucher phone email aff now rs).1,
           r :: (getAndMarkVoucher phone email aff now rs).2) := by
        simp [getAndMarkVoucher, he]
      rw [hg]
      rcases hrec : getAndMarkVoucher phone email aff now rs with ⟨res, rs'⟩
      rw [hrec] at ih
      cases res with
      | none =>
        obtain ⟨h1, h2⟩ := ih
        refine ⟨by rw [h1], ?_⟩
        intro x hx
        rcases List.mem_cons.mp hx with hx | hx
        · subst hx; simpa using he
        · exact h2 x hx
      | some sp =>
        obtain ⟨i, hi, helig, hmin, hsp, hset⟩ := ih
        refine ⟨i + 1, by simpa using hi, by simpa using helig, ?_, by simpa using hsp, ?_⟩
        · intro j hj
          cases j with
          | zero => simpa using he
          | succ j => exact hmin j (by omega)
        · simpa using hset

/-- C1: `getAndMarkVoucher` scans the rows in stored ascending order and
selects the first row whose status, after trimming and lowercasing, is
neither `"used"` nor `"yes"`; it writes back exactly that row's position
with the used marker and the buyer phone, email and timestamp fields, and
returns that row's serial and pin; if no such row exists it returns
`none`, not an error. -/
theorem C1_allocator_first_eligible (phone email aff now : JStr)
    (rows : List Row) :
    match getAndMarkVoucher phone email aff now rows with
    | (none, rows') => rows' = rows ∧ ∀ r ∈ rows, eligibleRow r = false
    | (some sp, rows') =>
        ∃ i, i < rows.length ∧ eligibleRow (rows.getD i []) = true ∧
          (∀ j, j < i → eligibleRow (rows.getD j []) = false) ∧
          sp = (jsTrim (cell (rows.getD i []) 0),
                jsTrim (cell (rows.getD i []) 1)) ∧
          rows' = rows.set i (markedRow (rows.getD i []) phone email aff now) :=
  getAndMarkVoucher_spec phone email aff now rows

/-- C10 (implicit): every call to the allocator issues at most one row
write — exactly the selected row's position — leaving every other row
unchanged; on exhaustion it performs no write at all; and the serial and
pin it returns are exactly the whitespace-trimmed serial and pin it
writes back into the selected row. -/
theorem C10_allocator_frame (phone email aff now : JStr) (rows : List Row) :
    match getAndMarkVoucher phone email aff now rows with
    | (none, rows') => rows' = rows
    | (some sp, rows') =>
        ∃ i, i < rows.length ∧
          rows' = rows.set i (markedRow (rows.getD i []) phone email aff now) ∧
          (∀ j, j ≠ i → rows'.getD j [] = rows.getD j []) ∧
          sp.1 = jsTrim (cell (rows.getD i []) 0) ∧
          sp.2 = jsTrim (cell (rows.getD i []) 1) ∧
          cell (rows'.getD i []) 0 = sp.1 ∧ cell (rows'.getD i []) 1 = sp.2 := by
  have h := getAndMarkVoucher_spec phone email aff now rows
  rcases hg : getAndMarkVoucher phone email aff now rows with ⟨res, rows'⟩
  rw [hg] at h
  cases res with
  | none => exact h.1
  | some sp =>
    obtain ⟨i, hi, _, _, hsp, hset⟩ := h
    refine ⟨i, hi, hset, ?_, by rw [hsp], by rw [hsp], ?_, ?_⟩
    · intro j hj
      rw [hset]
      rcases Nat.lt_or_ge j rows.length with hlt | hge
      · simp [List.getD, List.getElem?_set_ne (Ne.symm hj)]
      · have h1 : rows.length ≤ j := hge
        simp [List.getD, List.getElem?_eq_none, h1]
    · rw [hset, hsp]
      simp [List.getD, List.getElem?_set_self' , hi]
      simp [markedRow, cell]
    · rw [hset, hsp]
      simp [List.getD, List.getElem?_set_self', hi]
      simp [markedRow, cell]

/-! ## Sequential allocations (C2) -/

/-- `n` sequential (non-concurrent) calls to the allocator, collecting the
results in order and threading the store. -/
def allocateN (phone email aff now : JStr) :
    Nat → List Row → List (Option (JStr × JStr)) × List Row
  | 0, rows => ([], rows)
  | n + 1, rows =>
    let p := getAndMarkVoucher phone email aff now rows
    let q := allocateN phone email aff now n p.2
    (p.1 :: q.1, q.2)

/-- A freshly written row carries the literal `USED` status, hence is
never eligible again. -/
theorem eligibleRow_markedRow (r : Row) (phone email aff now : JStr) :
    eligibleRow (markedRow r phone email aff now) = false := by
  rfl

theorem rowStatus_markedRow (r : Row) (phone email aff now : JStr) :
    rowStatus (markedRow r phone email aff now) = "used".data := by
  rfl

/-- The allocator scans past a prefix of ineligible rows unchanged. -/
theorem getAndMarkVoucher_append_inelig (phone email aff now : JStr)
    (pre : List Row) (hpre : ∀ r ∈ pre, eligibleRow r = false)
    (rest : List Row) :
    getAndMarkVoucher phone email aff now (pre ++ rest) =
      ((getAndMarkVoucher phone email aff now rest).1,
       pre ++ (getAndMarkVoucher phone email aff now rest).2) := by
  induction pre with
  | nil => simp
  | cons r pre ih =>
    have hr : eligibleRow r = false := hpre r (by simp)
    have hrec := ih (fun x hx => hpre x (by simp [hx]))
    simp [getAndMarkVoucher, hr, hrec]

/-- Exhausted store: if every row is ineligible the allocator returns
`none` and writes nothing. -/
theorem getAndMarkVoucher_exhausted (phone email aff now : JStr)
    (rows : List Row) (h : ∀ r ∈ rows, eligibleRow r = false) :
    getAndMarkVoucher phone email aff now rows = (none, rows) := by
  have := getAndMarkVoucher_append_inelig phone email aff now rows h []
  simpa [getAndMarkVoucher] using this

/-- Running the allocator once per eligible row behind an ineligible
prefix marks the rows left to right. -/
theorem allocateN_all_eligible (phone email aff now : JStr) :
    ∀ rest pre : List Row, (∀ r ∈ pre, eligibleRow r = false) →
      (∀ r ∈ rest, eligibleRow r = true) →
      allocateN phone email aff now rest.length (pre ++ rest) =
        (rest.map (fun r => some (jsTrim (cell r 0), jsTrim (cell r 1))),
         pre ++ rest.map (fun r => markedRow r phone email aff now)) := by
  intro rest
  induction rest with
  | nil => intro pre _ _; simp [allocateN]
  | cons r t ih =>
    intro pre hpre helig
    have hr : eligibleRow r = true := helig r (by simp)
    have hfirst : getAndMarkVoucher phone email aff now (pre ++ (r :: t)) =
        (some (jsTrim (cell r 0), jsTrim (cell r 1)),
         pre ++ (markedRow r phone email aff now :: t)) := by
      rw [getAndMarkVoucher_append_inelig phone email aff now pre hpre]
      simp [getAndMarkVoucher, hr]
    have hpre' : ∀ x ∈ pre ++ [markedRow r phone email aff now],
        eligibleRow x = false := by
      intro x hx
      rcases List.mem_append.mp hx with hx | hx
      · exact hpre x hx
      · rcases List.mem_singleton.mp hx with rfl
        exact eligibleRow_markedRow r phone email aff now
    have hrec := ih (pre ++ [markedRow r phone email aff now]) hpre'
      (fun x hx => helig x (by simp [hx]))
    rw [List.append_assoc] at hrec
    simp only [List.length_cons, allocateN, hfirst, List.singleton_append] at hrec ⊢
    rw [hrec]
    simp

/-- C2 fails as stated: two unused rows whose stored serials `" v"` and
`"v "` are pairwise distinct nevertheless yield the same returned serial
`"v"` on both of the two sequential calls, because the allocator returns
the whitespace-trimmed serial. -/
theorem C2_counterexample :
    (∀ r ∈ ([[" v".data, "p1".data], ["v ".data, "p2".data]] : List Row),
        eligibleRow r = true) ∧
    ([[" v".data, "p1".data], ["v ".data, "p2".data]] : List Row).map
        (fun r => cell r 0) = [" v".data, "v ".data] ∧
    (" v".data ≠ "v ".data) ∧
    ((allocateN [] [] [] [] 2
        [[" v".data, "p1".data], ["v ".data, "p2".data]]).1.map
      (fun o => o.map Prod.fst)) = [some "v".data, some "v".data] := by
  decide

/-- C2 (amended): for every store seeded with `N` unused rows whose
*whitespace-trimmed* serials are pairwise distinct, `N` sequential calls
return `N` distinct (trimmed) serials and leave every row marked used,
and a further call returns the empty result with the store unchanged. -/
theorem C2_sequential_exhaustion (phone email aff now : JStr)
    (rows : List Row)
    (helig : ∀ r ∈ rows, eligibleRow r = true)
    (hnodup : (rows.map (fun r => jsTrim (cell r 0))).Nodup) :
    (allocateN phone email aff now rows.length rows).1 =
        rows.map (fun r => some (jsTrim (cell r 0), jsTrim (cell r 1))) ∧
    ((allocateN phone email aff now rows.length rows).1.map
        (fun o => o.map Prod.fst)).Nodup ∧
    (allocateN phone email aff now rows.length rows).2 =
        rows.map (fun r => markedRow r phone email aff now) ∧
    (∀ r ∈ (allocateN phone email aff now rows.length rows).2,
        rowStatus r = "used".data) ∧
    getAndMarkVoucher phone email aff now
        (allocateN phone email aff now rows.length rows).2 =
      (none, (allocateN phone email aff now rows.length rows).2) := by
  have hmain := allocateN_all_eligible phone email aff now rows [] (by simp) helig
  rw [List.nil_append] at hmain
  have hfst : (allocateN phone email aff now rows.length rows).1 =
      rows.map (fun r => some (jsTrim (cell r 0), jsTrim (cell r 1))) := by
    rw [hmain]
  have hsnd : (allocateN phone email aff now rows.length rows).2 =
      rows.map (fun r => markedRow r phone email aff now) := by
    rw [hmain]; simp
  have hmarked : ∀ r ∈ (allocateN phone email aff now rows.length rows).2,
      rowStatus r = "used".data := by
    rw [hsnd]
    intro x hx
    obtain ⟨r, _, rfl⟩ := List.mem_map.mp hx
    exact rowStatus_markedRow r phone email aff now
  refine ⟨hfst, ?_, hsnd, hmarked, ?_⟩
  · rw [hfst, List.map_map]
    have hcomp :
        ((fun o => Option.map Prod.fst o) ∘
          (fun r => some (jsTrim (cell r 0), jsTrim (cell r 1)))) =
        (fun r : Row => some (jsTrim (cell r 0))) := by
      funext r; rfl
    rw [hcomp]
    have : (rows.map fun r => some (jsTrim (cell r 0))) =
        (rows.map fun r => jsTrim (cell r 0)).map some := by
      rw [List.map_map]; rfl
    rw [this]
    exact hnodup.map (Option.some_injective _)
  · apply getAndMarkVoucher_exhausted
    intro x hx
    rw [hsnd] at hx
    obtain ⟨r, _, rfl⟩ := List.mem_map.mp hx
    exact eligibleRow_markedRow r phone email aff now

theorem C2_witness :
    ((∀ r ∈ ([[ "A".data, "p".data], ["B".data, "q".data]] : List Row),
        eligibleRow r = true) ∧
     (([[ "A".data, "p".data], ["B".data, "q".data]] : List Row).map
        (fun r => jsTrim (cell r 0))).Nodup) ∧
    (allocateN "ph".data "em".data [] "T".data 2
        [[ "A".data, "p".data], ["B".data, "q".data]]).1 =
      ([[ "A".data, "p".data], ["B".data, "q".data]] : List Row).map
        (fun r => some (jsTrim (cell r 0), jsTrim (cell r 1))) := by
  refine ⟨⟨by decide, by decide⟩, ?_⟩
  exact (C2_sequential_exhaustion "ph".data "em".data [] "T".data
    [[ "A".data, "p".data], ["B".data, "q".data]] (by decide) (by decide)).1

/-! ## SHA-512 and HMAC-SHA512 (the Signature Verifier, C4)

A byte is a `Nat` below 256; a 64-bit word is a `Nat` reduced modulo
`2 ^ 64`. `rawBody` and the secret are byte sequences (Node hashes the
UTF-8 bytes of the strings it is given); the computed digest is rendered
in lowercase hex exactly as `digest('hex')` does. -/

/-- Reduce to a 64-bit word. -/
def w64 (x : Nat) : Nat := x % 2 ^ 64

/-- 64-bit right rotation (for 0 < n < 64 and x < 2 ^ 64). -/
def rotr64 (n x : Nat) : Nat := w64 ((x >>> n) ||| (x <<< (64 - n)))

def bigSigma0 (x : Nat) : Nat := rotr64 28 x ^^^ rotr64 34 x ^^^ rotr64 39 x

def bigSigma1 (x : Nat) : Nat := rotr64 14 x ^^^ rotr64 18 x ^^^ rotr64 41 x

def smallSigma0 (x : Nat) : Nat := rotr64 1 x ^^^ rotr64 8 x ^^^ (x >>> 7)

def smallSigma1 (x : Nat) : Nat := rotr64 19 x ^^^ rotr64 61 x ^^^ (x >>> 6)

/-- `Ch(x,y,z)`; `¬x` is taken inside 64 bits. -/
def chFn (x y z : Nat) : Nat := (x &&& y) ^^^ (((2 ^ 64 - 1) ^^^ x) &&& z)

def majFn (x y z : Nat) : Nat := (x &&& y) ^^^ (x &&& z) ^^^ (y &&& z)

/-- The 80 SHA-512 round constants (FIPS 180-4). -/
def sha512K : List Nat := [
  4794697086780616226, 8158064640168781261, 13096744586834688815,
  16840607885511220156, 4131703408338449720, 6480981068601479193,
  10538285296894168987, 12329834152419229976, 15566598209576043074,
  1334009975649890238, 2608012711638119052, 6128411473006802146,
  8268148722764581231, 9286055187155687089, 11230858885718282805,
  13951009754708518548, 16472876342353939154, 17275323862435702243,
  1135362057144423861, 2597628984639134821, 3308224258029322869,
  5365058923640841347, 6679025012923562964, 8573033837759648693,
  10970295158949994411, 12119686244451234320, 12683024718118986047,
  13788192230050041572, 14330467153632333762, 15395433587784984357,
  489312712824947311, 1452737877330783856, 2861767655752347644,
  3322285676063803686, 5560940570517711597, 5996557281743188959,
  7280758554555802590, 8532644243296465576, 9350256976987008742,
  10552545826968843579, 11727347734174303076, 12113106623233404929,
  14000437183269869457, 14369950271660146224, 15101387698204529176,
  15463397548674623760, 17586052441742319658, 1182934255886127544,
  1847814050463011016, 2177327727835720531, 2830643537854262169,
  3796741975233480872, 4115178125766777443, 5681478168544905931,
  6601373596472566643, 7507060721942968483, 8399075790359081724,
  8693463985226723168, 9568029438360202098, 10144078919501101548,
  10430055236837252648, 11840083180663258601, 13761210420658862357,
  14299343276471374635, 14566680578165727644, 15097957966210449927,
  16922976911328602910, 17689382322260857208, 500013540394364858,
  748580250866718886, 1242879168328830382, 1977374033974150939,
  2944078676154940804, 3659926193048069267, 4368137639120453308,
  4836135668995329356, 5532061633213252278, 6448918945643986474,
  6902733635092675308, 7801388544844847127]

/-- The SHA-512 initial hash value (FIPS 180-4). -/
def sha512H0 : List Nat := [
  7640891576956012808, 13503953896175478587, 4354685564936845355,
  11912009170470909681, 5840696475078001361, 11170449401992604703,
  2270897969802886507, 6620516959819538809]

/-- Big-endian bytes of `x` in exactly `n` bytes. -/
def natToBytesBE : Nat → Nat → List Nat
  | 0, _ => []
  | n + 1, x => natToBytesBE n (x / 256) ++ [x % 256]

/-- Interpret a byte list as big-endian 64-bit words, 8 bytes each. -/
def bytesToWords64 : List Nat → List Nat
  | b0 :: b1 :: b2 :: b3 :: b4 :: b5 :: b6 :: b7 :: rest =>
    (((((((b0 * 256 + b1) * 256 + b2) * 256 + b3) * 256 + b4) * 256 + b5)
        * 256 + b6) * 256 + b7) :: bytesToWords64 rest
  | _ => []

/-- Extend the 16 block words by `n` further schedule words
(`w[t] = σ1(w[t-2]) + w[t-7] + σ0(w[t-15]) + w[t-16]`). -/
def sha512ExtendW (w : List Nat) : Nat → List Nat
  | 0 => w
  | n + 1 =>
    let prev := sha512ExtendW w n
    let m := prev.length
    prev ++ [w64 (smallSigma1 (prev.getD (m - 2) 0) + prev.getD (m - 7) 0 +
                  smallSigma0 (prev.getD (m - 15) 0) + prev.getD (m - 16) 0)]

/-- The eight 64-bit working variables of the compression function. -/
structure Sha512State where
  a : Nat
  b : Nat
  c : Nat
  d : Nat
  e : Nat
  f : Nat
  g : Nat
  h : Nat
deriving DecidableEq

/-- One SHA-512 round; the pair is `(schedule word, round constant)`. -/
def sha512Round (st : Sha512State) (wk : Nat × Nat) : Sha512State :=
  let t1 := w64 (st.h + bigSigma1 st.e + chFn st.e st.f st.g + wk.2 + wk.1)
  let t2 := w64 (bigSigma0 st.a + majFn st.a st.b st.c)
  ⟨w64 (t1 + t2), st.a, st.b, st.c, w64 (st.d + t1), st.e, st.f, st.g⟩

/-- Process one 128-byte block. -/
def sha512Compress (H : Sha512State) (block : List Nat) : Sha512State :=
  let ws := sha512ExtendW (bytesToWords64 block) 64
  let st := (ws.zip sha512K).foldl sha512Round H
  ⟨w64 (H.a + st.a), w64 (H.b + st.b), w64 (H.c + st.c), w64 (H.d + st.d),
   w64 (H.e + st.e), w64 (H.f + st.f), w64 (H.g + st.g), w64 (H.h + st.h)⟩

/-- Fold the compression function over the 128-byte blocks; the fuel is
an upper bound on the number of blocks (each step consumes at least one
byte), keeping the recursion structural. -/
def sha512BlocksAux : Nat → Sha512State → List Nat → Sha512State
  | 0, H, _ => H
  | _, H, [] => H
  | fuel + 1, H, x :: xs =>
    sha512BlocksAux fuel (sha512Compress H ((x :: xs).take 128))
      ((x :: xs).drop 128)

/-- Fold the compression function over the 128-byte blocks. -/
def sha512Blocks (H : Sha512State) (l : List Nat) : Sha512State :=
  sha512BlocksAux l.length H l

/-- FIPS 180-4 padding: append `0x80`, zeros, and the 128-bit big-endian
bit length, up to a multiple of 128 bytes. -/
def sha512Pad (msg : List Nat) : List Nat :=
  let l := msg.length
  let k := (128 - (l + 17) % 128) % 128
  msg ++ [0x80] ++ List.replicate k 0 ++ natToBytesBE 16 (8 * l)

/-- SHA-512 of a byte sequence, as a 64-byte digest. -/
def sha512 (msg : List Nat) : List Nat :=
  let st := sha512Blocks
    ⟨sha512H0.getD 0 0, sha512H0.getD 1 0, sha512H0.getD 2 0, sha512H0.getD 3 0,
     sha512H0.getD 4 0, sha512H0.getD 5 0, sha512H0.getD 6 0, sha512H0.getD 7 0⟩
    (sha512Pad msg)
  natToBytesBE 8 st.a ++ natToBytesBE 8 st.b ++ natToBytesBE 8 st.c ++
  natToBytesBE 8 st.d ++ natToBytesBE 8 st.e ++ natToBytesBE 8 st.f ++
  natToBytesBE 8 st.g ++ natToBytesBE 8 st.h

/-- HMAC-SHA512 (RFC 2104): block size 128 bytes, `ipad = 0x36`,
`opad = 0x5c`; a key longer than one block is first hashed. -/
def hmacSha512 (key msg : List Nat) : List Nat :=
  let k0 := if 128 < key.length then sha512 key else key
  let k1 := k0 ++ List.replicate (128 - k0.length) 0
  sha512 ((k1.map (fun b => b ^^^ 0x5C)) ++
          sha512 ((k1.map (fun b => b ^^^ 0x36)) ++ msg))

/-- One lowercase hex digit. -/
def hexDigit (n : Nat) : Char :=
  if n < 10 then Char.ofNat (48 + n) else Char.ofNat (87 + n)

/-- Lowercase hex rendering of a byte sequence (`digest('hex')`). -/
def bytesToHex (bs : List Nat) : JStr :=
  bs.foldr (fun b acc => hexDigit (b / 16) :: hexDigit (b % 16) :: acc) []

/-- The hex HMAC tag the verifier computes:
`crypto.createHmac('sha512', secret).update(rawBody).digest('hex')`. -/
def hmacSha512Hex (secret rawBody : List Nat) : JStr :=
  bytesToHex (hmacSha512 secret rawBody)

/-- `verifyPaystackSignature(rawBody, signature)` (`src/unnamed/part_004`):
fails closed on an empty secret (`if (!PAYSTACK_WEBHOOK_SECRET) return
false`), otherwise compares the computed lowercase hex tag with the
supplied header value by exact string equality; it is a total function —
a mismatch is an ordinary `false`, never a thrown error. -/
def verifyPaystackSignature (secret rawBody : List Nat) (signature : JStr) : Bool :=
  if secret = [] then false
  else hmacSha512Hex secret rawBody == signature

set_option maxRecDepth 100000 in
example :
    verifyPaystackSignature [0x4a, 0x65] [0x61]
      (hmacSha512Hex [0x4a, 0x65] [0x61]) = true := by decide

example :
    verifyPaystackSignature [] [0x61] (hmacSha512Hex [] [0x61]) = false := by
  decide

/-- C4: the Signature Verifier accepts iff the supplied signature equals
the lowercase hex encoding of HMAC-SHA512 of the exact raw body under the
configured webhook secret; with a missing (empty) secret it rejects
rather than throwing, and (being a total function) it never throws on a
mismatch. -/
theorem C4_signature_verifier (secret rawBody : List Nat) (signature : JStr) :
    verifyPaystackSignature secret rawBody signature = true ↔
      secret ≠ [] ∧ signature = hmacSha512Hex secret rawBody := by
  unfold verifyPaystackSignature
  by_cases hs : secret = []
  · rw [if_pos hs]
    constructor
    · intro h; exact absurd h (by decide)
    · intro h; exact absurd hs h.1
  · rw [if_neg hs]
    constructor
    · intro h; exact ⟨hs, (eq_of_beq h).symm⟩
    · intro h; rw [h.2]; exact beq_self_eq_true _

/-! ## The Affiliate Ledger (`sheets.js`, C7)

A numeric value written through the values API (`valueInputOption: RAW`)
is read back as its decimal string; `renderNat` is that rendering and
`parseCellNat` models `parseFloat(x || 0) || 0` on the nonnegative
integer-rendered cells this ledger ever writes (a digit prefix parses to
its value, anything without one — including the empty cell — falls to
`0`). -/

/-- Base-10 digits of `n`, least significant first; the fuel (any bound
on `n`) keeps the recursion structural so the kernel can evaluate it. -/
def decDigitsAux : Nat → Nat → List Nat
  | 0, _ => []
  | _, 0 => []
  | fuel + 1, n + 1 => ((n + 1) % 10) :: decDigitsAux fuel ((n + 1) / 10)

/-- Decimal rendering of a nonnegative integer cell value. -/
def renderNat (n : Nat) : JStr :=
  if n = 0 then ['0'] else ((decDigitsAux n n).map Nat.digitChar).reverse

/-- Value of a most-significant-first digit string. -/
def digitsVal (s : JStr) : Nat :=
  s.foldl (fun a c => a * 10 + (c.toNat - 48)) 0

/-- `parseFloat(x || 0) || 0` on an integer-rendered cell. -/
def parseCellNat (s : JStr) : Nat :=
  let ds := s.takeWhile (fun c => c.isDigit)
  if ds = [] then 0 else digitsVal ds

/-- A range-update (`Affiliates!D{i}:E{i}`) writes a cell that exists
implicitly even in a ragged row: pad with empty cells, then set. -/
def padRow (r : Row) (n : Nat) : Row := r ++ List.replicate (n - r.length) []

def setCell (r : Row) (i : Nat) (v : JStr) : Row := (padRow r (i + 1)).set i v

/-- The scan loop of `updateOrCreateAffiliateTotals`: find the first row
whose column A equals the code exactly (`(rows[i][0] || '').toString()
=== refCode`), and rewrite only its `D:E` cells
(`newSales = prevSales + 1`, `newComm = prevComm + 3`). -/
def updTotalsScan (refCode : JStr) : List Row → Option (List Row)
  | [] => none
  | r :: rs =>
    if cell r 0 = refCode then
      some (setCell (setCell r 3 (renderNat (parseCellNat (cell r 3) + 1))) 4
              (renderNat (parseCellNat (cell r 4) + 3)) :: rs)
    else
      (updTotalsScan refCode rs).map (fun l => r :: l)

/-- `updateOrCreateAffiliateTotals(refCode)` from `sheets.js`: no-op on a
missing code (`if (!refCode) return`), update the first matching row's
totals, or append a fresh row `[refCode, '', '', 1, 3]`. -/
def updateOrCreateAffiliateTotals (refCode : JStr) (rows : List Row) : List Row :=
  if refCode = [] then rows
  else
    match updTotalsScan refCode rows with
    | some rows2 => rows2
    | none => rows ++ [[refCode, [], [], renderNat 1, renderNat 3]]

/-- `appendAffiliateSaleRow(refCode, buyerPhone, voucherSerial)` from
`sheets.js` appends `[date, refCode, buyerPhone, 25, 3, voucherSerial,
'no']` to the sale-event log. -/
def mkAffiliateSaleRow (now refCode buyerPhone voucherSerial : JStr) : Row :=
  [now, refCode, buyerPhone, renderNat 25, renderNat 3, voucherSerial,
   "no".data]

/-- The two affiliate tabs. -/
structure LedgerState where
  affiliates : List Row
  affiliateSales : List Row
deriving DecidableEq

/-- One fulfilled sale with a referral code, as the webhook performs it:
`appendAffiliateSaleRow` then `updateOrCreateAffiliateTotals`. -/
def recordSaleAndAccrue (refCode buyerPhone voucherSerial now : JStr)
    (st : LedgerState) : LedgerState :=
  { affiliates := updateOrCreateAffiliateTotals refCode st.affiliates,
    affiliateSales := st.affiliateSales ++
      [mkAffiliateSaleRow now refCode buyerPhone voucherSerial] }

/-- A sequence of fulfilled sales under one referral code; each sale is a
`(buyerPhone, voucherSerial, timestamp)` triple. -/
def runSales (refCode : JStr) :
    List (JStr × JStr × JStr) → LedgerState → LedgerState
  | [], st => st
  | s :: rest, st =>
    runSales refCode rest (recordSaleAndAccrue refCode s.1 s.2.1 s.2.2 st)

example :
    updateOrCreateAffiliateTotals "AB".data
      [["AB".data, [], [], "4".data, "12".data]] =
    [["AB".data, [], [], "5".data, "15".data]] := by decide

/-! ### Decimal roundtrip -/

theorem digitChar_toNat_of_lt : ∀ d, d < 10 → (Nat.digitChar d).toNat = 48 + d := by
  decide

theorem digitChar_isDigit_of_lt : ∀ d, d < 10 → (Nat.digitChar d).isDigit = true := by
  decide

theorem digitsVal_reverse_map (L : List Nat) (hL : ∀ d ∈ L, d < 10) :
    digitsVal ((L.map Nat.digitChar).reverse) = Nat.ofDigits 10 L := by
  induction L with
  | nil => rfl
  | cons d t ih =>
    have hd : d < 10 := hL d (by simp)
    have ht := ih (fun x hx => hL x (by simp [hx]))
    unfold digitsVal at ht ⊢
    rw [List.map_cons, List.reverse_cons, List.foldl_append, ht]
    simp [Nat.ofDigits_cons, digitChar_toNat_of_lt d hd]
    ring

theorem takeWhile_all {p : Char → Bool} :
    ∀ l : JStr, (∀ c ∈ l, p c = true) → l.takeWhile p = l := by
  intro l h
  induction l with
  | nil => rfl
  | cons c t ih =>
    rw [List.takeWhile_cons_of_pos (h c (by simp))]
    rw [ih (fun x hx => h x (by simp [hx]))]

theorem decDigitsAux_eq_digits :
    ∀ fuel n, n ≤ fuel → decDigitsAux fuel n = Nat.digits 10 n := by
  intro fuel
  induction fuel with
  | zero => intro n hn; interval_cases n; simp [decDigitsAux]
  | succ fuel ih =>
    intro n hn
    cases n with
    | zero => simp [decDigitsAux]
    | succ m =>
      rw [Nat.digits_def' (by norm_num) (Nat.succ_pos m)]
      unfold decDigitsAux
      rw [ih ((m + 1) / 10) (by omega)]

theorem parseCellNat_renderNat (n : Nat) : parseCellNat (renderNat n) = n := by
  by_cases h0 : n = 0
  · subst h0; decide
  · unfold renderNat parseCellNat
    rw [if_neg h0, decDigitsAux_eq_digits n n (le_refl n)]
    have hdig : ∀ c ∈ ((Nat.digits 10 n).map Nat.digitChar).reverse,
        c.isDigit = true := by
      intro c hc
      rw [List.mem_reverse] at hc
      obtain ⟨d, hd, rfl⟩ := List.mem_map.mp hc
      exact digitChar_isDigit_of_lt d (Nat.digits_lt_base (by norm_num) hd)
    rw [takeWhile_all _ hdig]
    have hne : ((Nat.digits 10 n).map Nat.digitChar).reverse ≠ [] := by
      simp [Nat.digits_ne_nil_iff_ne_zero.mpr h0]
    rw [if_neg hne]
    rw [digitsVal_reverse_map _ (fun d hd => Nat.digits_lt_base (by norm_num) hd)]
    exact_mod_cast Nat.ofDigits_digits 10 n

/-! ### Accrual accumulates -/

theorem updTotalsScan_none (code : JStr) :
    ∀ rows : List Row, (∀ r ∈ rows, cell r 0 ≠ code) →
      updTotalsScan code rows = none := by
  intro rows h
  induction rows with
  | nil => rfl
  | cons r rs ih =>
    unfold updTotalsScan
    rw [if_neg (h r (by simp)), ih (fun x hx => h x (by simp [hx]))]
    rfl

theorem updTotalsScan_append_miss (code : JStr) (l : List Row) :
    ∀ pre : List Row, (∀ r ∈ pre, cell r 0 ≠ code) →
      updTotalsScan code (pre ++ l) =
        (updTotalsScan code l).map (fun x => pre ++ x) := by
  intro pre hpre
  induction pre with
  | nil => simp
  | cons r pre ih =>
    have hr := hpre r (by simp)
    have hrec := ih (fun x hx => hpre x (by simp [hx]))
    simp only [List.cons_append, updTotalsScan]
    rw [if_neg hr]
    simp only [List.append_eq]
    rw [hrec, Option.map_map]
    rfl

/-- The fresh-row creation path. -/
theorem updateOrCreateAffiliateTotals_create (code : JStr) (hcode : code ≠ [])
    (rows : List Row) (hmiss : ∀ r ∈ rows, cell r 0 ≠ code) :
    updateOrCreateAffiliateTotals code rows =
      rows ++ [[code, [], [], renderNat 1, renderNat 3]] := by
  unfold updateOrCreateAffiliateTotals
  rw [if_neg hcode, updTotalsScan_none code rows hmiss]

/-- The running-totals update path, on the row this ledger itself
created. -/
theorem updateOrCreateAffiliateTotals_accrue (code : JStr) (hcode : code ≠ [])
    (pre : List Row) (hpre : ∀ r ∈ pre, cell r 0 ≠ code) (a b : Nat) :
    updateOrCreateAffiliateTotals code
        (pre ++ [[code, [], [], renderNat a, renderNat b]]) =
      pre ++ [[code, [], [], renderNat (a + 1), renderNat (b + 3)]] := by
  unfold updateOrCreateAffiliateTotals
  rw [if_neg hcode,
      updTotalsScan_append_miss code [[code, [], [], renderNat a, renderNat b]]
        pre hpre]
  have hhit : updTotalsScan code [[code, [], [], renderNat a, renderNat b]] =
      some [[code, [], [], renderNat (a + 1), renderNat (b + 3)]] := by
    unfold updTotalsScan
    rw [if_pos (by simp [cell])]
    simp [cell, setCell, padRow, parseCellNat_renderNat]
  rw [hhit]
  rfl

/-- Invariant: once the account row exists at the end of the tab with
totals `(k, 3k)`, each further sale moves it to `(k+1, 3(k+1))` and
appends one log row. -/
theorem runSales_inv (code : JStr) (hcode : code ≠ []) :
    ∀ (sales : List (JStr × JStr × JStr)) (aff0 : List Row)
      (slog : List Row) (k : Nat), (∀ r ∈ aff0, cell r 0 ≠ code) →
      runSales code sales
          ⟨aff0 ++ [[code, [], [], renderNat k, renderNat (3 * k)]], slog⟩ =
        ⟨aff0 ++ [[code, [], [], renderNat (k + sales.length),
                   renderNat (3 * (k + sales.length))]],
         slog ++ sales.map (fun s => mkAffiliateSaleRow s.2.2 code s.1 s.2.1)⟩ := by
  intro sales
  induction sales with
  | nil => intro aff0 slog k h; simp [runSales]
  | cons s rest ih =>
    intro aff0 slog k h
    unfold runSales recordSaleAndAccrue
    simp only
    rw [updateOrCreateAffiliateTotals_accrue code hcode aff0 h k (3 * k)]
    have h1 : 3 * k + 3 = 3 * (k + 1) := by omega
    rw [h1, ih aff0 (slog ++ [mkAffiliateSaleRow s.2.2 code s.1 s.2.1]) (k + 1) h]
    have h2 : k + 1 + rest.length = k + (rest.length + 1) := by omega
    rw [h2]
    simp

/-- C7: starting from an affiliate tab with no row for the code, `n ≥ 1`
fulfilled sales under that code leave its account row with `totalSales =
n` and `totalCommission = 3 n` (the fixed commission unit is 3), and
append `n` distinct sale-event log entries; the code's row is created on
the first sale seeded with one sale and one commission unit. -/
theorem C7_affiliate_ledger_accumulates (code : JStr) (hcode : code ≠ [])
    (sales : List (JStr × JStr × JStr)) (hn : sales ≠ [])
    (st : LedgerState) (hmiss : ∀ r ∈ st.affiliates, cell r 0 ≠ code)
    (hdates : (sales.map (fun s => s.2.2)).Nodup) :
    (runSales code sales st).affiliates =
        st.affiliates ++
          [[code, [], [], renderNat sales.length,
            renderNat (3 * sales.length)]] ∧
    (runSales code sales st).affiliateSales =
        st.affiliateSales ++
          sales.map (fun s => mkAffiliateSaleRow s.2.2 code s.1 s.2.1) ∧
    (sales.map (fun s => mkAffiliateSaleRow s.2.2 code s.1 s.2.1)).Nodup := by
  have hnodup : (sales.map (fun s => mkAffiliateSaleRow s.2.2 code s.1 s.2.1)).Nodup := by
    apply List.Nodup.of_map (fun r : Row => cell r 0)
    have hcomp : (sales.map (fun s => mkAffiliateSaleRow s.2.2 code s.1 s.2.1)).map
        (fun r : Row => cell r 0) = sales.map (fun s => s.2.2) := by
      rw [List.map_map]
      rfl
    rw [hcomp]
    exact hdates
  rcases sales with _ | ⟨s, rest⟩
  · exact absurd rfl hn
  obtain ⟨aff, slog⟩ := st
  have hstep : recordSaleAndAccrue code s.1 s.2.1 s.2.2 ⟨aff, slog⟩ =
      ⟨aff ++ [[code, [], [], renderNat 1, renderNat (3 * 1)]],
       slog ++ [mkAffiliateSaleRow s.2.2 code s.1 s.2.1]⟩ := by
    unfold recordSaleAndAccrue
    rw [updateOrCreateAffiliateTotals_create code hcode aff hmiss]
  have hrun : runSales code (s :: rest) (⟨aff, slog⟩ : LedgerState) =
      runSales code rest
        ⟨aff ++ [[code, [], [], renderNat 1, renderNat (3 * 1)]],
         slog ++ [mkAffiliateSaleRow s.2.2 code s.1 s.2.1]⟩ := by
    simp only [runSales]
    rw [hstep]
  rw [hrun, runSales_inv code hcode rest aff
        (slog ++ [mkAffiliateSaleRow s.2.2 code s.1 s.2.1]) 1 hmiss]
  have hlen : 1 + rest.length = rest.length + 1 := by omega
  rw [hlen]
  refine ⟨by simp, ?_, hnodup⟩
  simp

theorem C7_witness :
    (("AB".data : JStr) ≠ [] ∧
      ([(("p1".data : JStr), ("s1".data : JStr), ("t1".data : JStr)),
        (("p2".data : JStr), ("s2".data : JStr), ("t2".data : JStr))] ≠
        ([] : List (JStr × JStr × JStr)))) ∧
    (runSales "AB".data
        [("p1".data, "s1".data, "t1".data), ("p2".data, "s2".data, "t2".data)]
        ⟨[], []⟩).affiliates =
      [["AB".data, [], [], renderNat 2, renderNat 6]] := by
  refine ⟨⟨by decide, by decide⟩, ?_⟩
  exact (C7_affiliate_ledger_accumulates "AB".data (by decide)
      [("p1".data, "s1".data, "t1".data), ("p2".data, "s2".data, "t2".data)]
      (by decide) ⟨[], []⟩ (by decide) (by decide)).1

/-! ## The webhook handler (`src/unnamed/part_004`, lines 465-542)

The final server's `POST /webhook`: the variant built on the `sheets.js`
module, with the idempotency guard. The signature check outcome is the
`sigValid` flag (its computation is `verifyPaystackSignature` above); the
guard's read outcome is the `paymentsReadable` flag; the SMS provider
call outcome is the `smsOk` flag (a throwing send is caught and logged).
The affiliate and payment-log appends are modelled on their success path
(their `try`/`catch` only guards against provider failures). -/

/-- The parsed webhook envelope after the `|| ''` / `|| null` defaults:
`event.event`, `data.status`, `metadata.phone`, `metadata.email`,
`metadata.ref` (`[]` plays the role of `null`), `data.reference`. -/
structure Event where
  event : JStr
  status : JStr
  phone : JStr
  email : JStr
  ref : JStr
  reference : JStr
deriving DecidableEq

/-- The externally stored state the handler can touch, plus the log of
SMS messages actually delivered to the provider. -/
structure World where
  vouchers : List Row
  affiliates : List Row
  affiliateSales : List Row
  payments : List Row
  smsLog : List (JStr × JStr)
deriving DecidableEq

structure HttpResponse where
  status : Nat
  body : JStr
deriving DecidableEq

/-- Reading the range `Payments!B2:B` projects each payment row to its
column-B cell. -/
def paymentsColumnB (payments : List Row) : List Row :=
  payments.map (fun r => [cell r 1])

/-- `paymentsContainsReference(reference)` from `sheets.js`: scan the
`B2:B` read for an exact match (`(r[0] || '') === reference`); when the
read throws (`none`, e.g. the Payments tab is not provisioned) the
`catch` returns `false` so processing continues — the guard never throws
to its caller. -/
def paymentsContainsReference (readResult : Option (List Row))
    (reference : JStr) : Bool :=
  match readResult with
  | none => false
  | some rows => rows.any (fun r => cell r 0 == reference)

/-- `appendPaymentLog(reference, phone, email, amount, voucherSerial,
affiliateCode)` from `sheets.js` appends one row to `Payments!A:G` with
the reference in column B. -/
def appendPaymentRow (reference phone email amount voucherSerial
    affiliateCode now : JStr) (payments : List Row) : List Row :=
  payments ++ [[now, reference, phone, email, amount, voucherSerial,
                affiliateCode]]

/-- The fixed SMS template embedding serial and PIN. -/
def smsMessage (serial pin : JStr) : JStr :=
  "Your WASSCE voucher:\nSerial: ".data ++ serial ++ "\nPIN: ".data ++ pin ++
  "\nThank you for buying from Authentic Checkers!".data

/-- The `POST /webhook` handler. Control flow, in source order: signature
check (400), event-type filter (200 "ignored"), status filter (200
"ignored"), idempotency guard (200 "already processed"), inline phone
rewrite, voucher allocation (exhaustion: payment log appended with an
empty serial, 200 "no vouchers"), best-effort SMS, best-effort affiliate
logging when a referral code is present, payment-log append, 200 "ok".
The returned `World` shows each field as the step that writes it left
it. -/
def webhookSheets (sigValid paymentsReadable smsOk : Bool) (ev : Event)
    (now : JStr) (w : World) : HttpResponse × World :=
  if sigValid = false then (⟨400, "Invalid signature".data⟩, w)
  else if ev.event ≠ "charge.success".data then (⟨200, "ignored".data⟩, w)
  else if jsToLower ev.status ≠ "success".data then (⟨200, "ignored".data⟩, w)
  else if paymentsContainsReference
      (if paymentsReadable then some (paymentsColumnB w.payments) else none)
      ev.reference then
    (⟨200, "already processed".data⟩, w)
  else
    let phone := inlinePhoneRewrite ev.phone
    let alloc := getAndMarkVoucher phone ev.email [] now w.vouchers
    match alloc.1 with
    | none =>
      (⟨200, "no vouchers".data⟩,
       { w with vouchers := alloc.2,
                payments := appendPaymentRow ev.reference phone ev.email
                  (renderNat 25) [] ev.ref now w.payments })
    | some sp =>
      (⟨200, "ok".data⟩,
       { vouchers := alloc.2,
         affiliates := if ev.ref ≠ [] then
             updateOrCreateAffiliateTotals ev.ref w.affiliates
           else w.affiliates,
         affiliateSales := if ev.ref ≠ [] then
             w.affiliateSales ++ [mkAffiliateSaleRow now ev.ref phone sp.1]
           else w.affiliateSales,
         payments := appendPaymentRow ev.reference phone ev.email
           (renderNat 25) sp.1 ev.ref now w.payments,
         smsLog := if smsOk then w.smsLog ++ [(phone, smsMessage sp.1 sp.2)]
           else w.smsLog })

/-- C8: when the payment log is unreadable (the read raises), the
Idempotency Guard's membership check returns `false` — "not seen" — for
every reference, rather than propagating the error; being a total
function it never throws to its caller. -/
theorem C8_guard_fails_open (reference : JStr) :
    paymentsContainsReference none reference = false := rfl

/-- A delivery whose reference the guard already knows is acknowledged
with 200 "already processed" and the world is untouched. -/
theorem webhook_already_short_circuits (w : World) (ev : Event) (smsOk : Bool)
    (now : JStr)
    (hev : ev.event = "charge.success".data)
    (hst : jsToLower ev.status = "success".data)
    (hpcr : paymentsContainsReference (some (paymentsColumnB w.payments))
      ev.reference = true) :
    webhookSheets true true smsOk ev now w =
      (⟨200, "already processed".data⟩, w) := by
  unfold webhookSheets
  simp [hev, hst, hpcr]

/-- The freshly appended payment row makes the guard see the reference. -/
theorem paymentsContainsReference_append (payments : List Row)
    (reference phone email amount serial aff now : JStr) :
    paymentsContainsReference
      (some (paymentsColumnB
        (appendPaymentRow reference phone email amount serial aff now
          payments))) reference = true := by
  unfold paymentsContainsReference paymentsColumnB appendPaymentRow
  simp [cell]

/-- A first, not-yet-seen delivery is acknowledged with 200 and records
its reference in the payment log (with an empty voucher serial on
exhaustion). -/
theorem webhook_first_processing (w : World) (ev : Event) (smsOk : Bool)
    (now : JStr)
    (hev : ev.event = "charge.success".data)
    (hst : jsToLower ev.status = "success".data)
    (hpcr : paymentsContainsReference (some (paymentsColumnB w.payments))
      ev.reference = false) :
    (webhookSheets true true smsOk ev now w).1.status = 200 ∧
    ∃ s : JStr, (webhookSheets true true smsOk ev now w).2.payments =
      appendPaymentRow ev.reference (inlinePhoneRewrite ev.phone) ev.email
        (renderNat 25) s ev.ref now w.payments := by
  unfold webhookSheets
  simp only [hev, hst, hpcr]
  rcases halloc : (getAndMarkVoucher (inlinePhoneRewrite ev.phone) ev.email []
      now w.vouchers).1 with _ | sp
  · exact ⟨by simp [hpcr, halloc], ⟨[], by simp [hpcr, halloc]⟩⟩
  · refine ⟨by simp [hpcr, halloc], ⟨sp.1, by simp [hpcr, halloc]⟩⟩

/-- C3: a webhook delivery whose gateway reference is already recorded in
the payment log is answered 200 with no voucher allocation, no SMS and no
affiliate update (the world is returned unchanged); and replaying an
identical `charge.success` payload after a first successful processing
responds 200 both times and leaves every store exactly as the first
processing left it. -/
theorem C3_webhook_idempotent_replay (w : World) (ev : Event)
    (smsOk smsOk2 : Bool) (now now2 : JStr)
    (hev : ev.event = "charge.success".data)
    (hst : jsToLower ev.status = "success".data) :
    (paymentsContainsReference (some (paymentsColumnB w.payments))
        ev.reference = true →
      webhookSheets true true smsOk ev now w =
        (⟨200, "already processed".data⟩, w)) ∧
    (paymentsContainsReference (some (paymentsColumnB w.payments))
        ev.reference = false →
      (webhookSheets true true smsOk ev now w).1.status = 200 ∧
      webhookSheets true true smsOk2 ev now2
          (webhookSheets true true smsOk ev now w).2 =
        (⟨200, "already processed".data⟩,
         (webhookSheets true true smsOk ev now w).2)) := by
  constructor
  · intro hpcr
    exact webhook_already_short_circuits w ev smsOk now hev hst hpcr
  · intro hpcr
    obtain ⟨hstatus, s, hpay⟩ := webhook_first_processing w ev smsOk now hev hst hpcr
    refine ⟨hstatus, ?_⟩
    apply webhook_already_short_circuits _ ev smsOk2 now2 hev hst
    rw [hpay]
    exact paymentsContainsReference_append w.payments ev.reference
      (inlinePhoneRewrite ev.phone) ev.email (renderNat 25) s ev.ref now

theorem C3_witness :
    ((Event.mk "charge.success".data "success".data "0551234567".data
        "k@x.com".data [] "REF1".data).event = "charge.success".data ∧
     jsToLower (Event.mk "charge.success".data "success".data
        "0551234567".data "k@x.com".data [] "REF1".data).status =
       "success".data) ∧
    ((paymentsContainsReference (some (paymentsColumnB
        (World.mk [["S1".data, "P1".data]] [] [] [] []).payments))
        (Event.mk "charge.success".data "success".data "0551234567".data
          "k@x.com".data [] "REF1".data).reference = true →
      webhookSheets true true true
          (Event.mk "charge.success".data "success".data "0551234567".data
            "k@x.com".data [] "REF1".data) "T1".data
          (World.mk [["S1".data, "P1".data]] [] [] [] []) =
        (⟨200, "already processed".data⟩,
         World.mk [["S1".data, "P1".data]] [] [] [] [])) ∧
     (paymentsContainsReference (some (paymentsColumnB
        (World.mk [["S1".data, "P1".data]] [] [] [] []).payments))
        (Event.mk "charge.success".data "success".data "0551234567".data
          "k@x.com".data [] "REF1".data).reference = false →
      (webhookSheets true true true
          (Event.mk "charge.success".data "success".data "0551234567".data
            "k@x.com".data [] "REF1".data) "T1".data
          (World.mk [["S1".data, "P1".data]] [] [] [] [])).1.status = 200 ∧
      webhookSheets true true true
          (Event.mk "charge.success".data "success".data "0551234567".data
            "k@x.com".data [] "REF1".data) "T2".data
          (webhookSheets true true true
            (Event.mk "charge.success".data "success".data "0551234567".data
              "k@x.com".data [] "REF1".data) "T1".data
            (World.mk [["S1".data, "P1".data]] [] [] [] [])).2 =
        (⟨200, "already processed".data⟩,
         (webhookSheets true true true
            (Event.mk "charge.success".data "success".data "0551234567".data
              "k@x.com".data [] "REF1".data) "T1".data
            (World.mk [["S1".data, "P1".data]] [] [] [] [])).2))) := by
  refine ⟨⟨by decide, by decide⟩, ?_⟩
  exact C3_webhook_idempotent_replay
    (World.mk [["S1".data, "P1".data]] [] [] [] [])
    (Event.mk "charge.success".data "success".data "0551234567".data
      "k@x.com".data [] "REF1".data)
    true true "T1".data "T2".data (by decide) (by decide)

/-- C9: when voucher allocation succeeds but the SMS send throws
(`smsOk = false`, caught and logged by the handler), the webhook still
responds 200 "ok", the allocation is not reverted (the store keeps the
allocator's write, with the selected row marked used with the buyer's
details), and no SMS is delivered. -/
theorem C9_sms_failure_keeps_allocation (w : World) (ev : Event)
    (now : JStr) (v : JStr × JStr)
    (hev : ev.event = "charge.success".data)
    (hst : jsToLower ev.status = "success".data)
    (hpcr : paymentsContainsReference (some (paymentsColumnB w.payments))
      ev.reference = false)
    (halloc : (getAndMarkVoucher (inlinePhoneRewrite ev.phone) ev.email []
      now w.vouchers).1 = some v) :
    (webhookSheets true true false ev now w).1 = ⟨200, "ok".data⟩ ∧
    (webhookSheets true true false ev now w).2.vouchers =
      (getAndMarkVoucher (inlinePhoneRewrite ev.phone) ev.email [] now
        w.vouchers).2 ∧
    (webhookSheets true true false ev now w).2.smsLog = w.smsLog := by
  unfold webhookSheets
  simp [hev, hst, hpcr, halloc]

theorem C9_witness :
    ((Event.mk "charge.success".data "success".data "0551234567".data
        "k@x.com".data [] "REF2".data).event = "charge.success".data ∧
     jsToLower (Event.mk "charge.success".data "success".data
        "0551234567".data "k@x.com".data [] "REF2".data).status =
       "success".data ∧
     paymentsContainsReference (some (paymentsColumnB
        (World.mk [["S1".data, "P1".data]] [] [] [] []).payments))
        (Event.mk "charge.success".data "success".data "0551234567".data
          "k@x.com".data [] "REF2".data).reference = false ∧
     (getAndMarkVoucher (inlinePhoneRewrite (Event.mk "charge.success".data
          "success".data "0551234567".data "k@x.com".data []
          "REF2".data).phone)
        (Event.mk "charge.success".data "success".data "0551234567".data
          "k@x.com".data [] "REF2".data).email [] "T1".data
        (World.mk [["S1".data, "P1".data]] [] [] [] []).vouchers).1 =
       some ("S1".data, "P1".data)) ∧
    ((webhookSheets true true false
        (Event.mk "charge.success".data "success".data "0551234567".data
          "k@x.com".data [] "REF2".data) "T1".data
        (World.mk [["S1".data, "P1".data]] [] [] [] [])).1 =
      ⟨200, "ok".data⟩ ∧
     (webhookSheets true true false
        (Event.mk "charge.success".data "success".data "0551234567".data
          "k@x.com".data [] "REF2".data) "T1".data
        (World.mk [["S1".data, "P1".data]] [] [] [] [])).2.vouchers =
      (getAndMarkVoucher (inlinePhoneRewrite (Event.mk "charge.success".data
          "success".data "0551234567".data "k@x.com".data []
          "REF2".data).phone)
        (Event.mk "charge.success".data "success".data "0551234567".data
          "k@x.com".data [] "REF2".data).email [] "T1".data
        (World.mk [["S1".data, "P1".data]] [] [] [] []).vouchers).2 ∧
     (webhookSheets true true false
        (Event.mk "charge.success".data "success".data "0551234567".data
          "k@x.com".data [] "REF2".data) "T1".data
        (World.mk [["S1".data, "P1".data]] [] [] [] [])).2.smsLog =
      (World.mk [["S1".data, "P1".data]] [] [] [] []).smsLog) := by
  refine ⟨⟨by decide, by decide, by decide, by decide⟩, ?_⟩
  exact C9_sms_failure_keeps_allocation
    (World.mk [["S1".data, "P1".data]] [] [] [] [])
    (Event.mk "charge.success".data "success".data "0551234567".data
      "k@x.com".data [] "REF2".data)
    "T1".data ("S1".data, "P1".data) (by decide) (by decide) (by decide)
    (by decide)
